import Mathlib

/-!
# Verification of the telegram customer-service relay bot

Shallow embedding of the Go sources of `fakagege/telegramkefu`:

* `internal/broadcast/broadcasts.go` — the broadcast-builder flow manager,
* `internal/welcome` (source file `welcome.go`) — the welcome-message flow manager,
* `internal/cache/redis.go` — the key-value store wrapper,
* `main.go` — the dispatcher (`handleUpdate`, `handleMessage`,
  `handleAdminMessage`, `handleUserMessage`, `handleListBlocked`,
  `handleUserStats`, `handleCallbackQuery`).

Modelling conventions:

* Go strings are embedded as `List Char`; `strings.TrimSpace`,
  `strings.Split`, `strings.SplitN(s, sep, 2)`, `strings.Trim(s, cutset)`
  and `strings.HasPrefix` are embedded by the explicit list functions below
  (restricted to ASCII whitespace, which is all the sources ever produce).
* The two Redis sets (`telegram_bot_users`, `blocked_users`) are embedded as
  duplicate-free lists of `Int` (redis sets hold the decimal renderings
  produced by `strconv.FormatInt`; parsing them back is injective).  Redis
  string/hash keys become record fields; a missing string key reads as the
  empty string, exactly as `GetConfigValue` maps `redis.Nil` to `""`.
* Go maps with `value, ok := m[k]` lookups are embedded as `Int → Option _`
  functions; `delete(m, k)` stores `none`, plain assignment stores `some _`.
  Reading `m.Broadcasts[chatID]` without the ok-flag yields the zero value
  for a missing key, embedded by `Option.getD`.
* Transport side effects (`API.Send`, `DeleteMessage`, `Request`) are
  collected in an `Output` list; sends are assumed to succeed.  The message
  identifier that Telegram assigns to a freshly sent builder menu is passed
  in as an explicit `freshID` parameter.  Inline keyboards attached to
  prompt/notice messages are elided except where a claim depends on them
  (welcome keyboards, broadcast button rows, blocked-list pagination
  controls).
* Transient store/transport errors are not modelled (every claim under
  scrutiny concerns the success paths; the sources merely log failures).
-/

/-! ## Go string primitives over `List Char` -/

/-- The `|` separator used by the button grammar. -/
def pipeCh : Char := '|'

/-- Newline, the line separator of button specs. -/
def nlCh : Char := '\n'

/-- Backtick, stripped from URLs by `strings.Trim(url, "\x60")`. -/
def backtickCh : Char := Char.ofNat 96

/-- ASCII fragment of `unicode.IsSpace`, used by `strings.TrimSpace`. -/
def goIsSpace (c : Char) : Bool :=
  c = ' ' || c = '\t' || c = '\n' || c = '\r' || c = Char.ofNat 11 || c = Char.ofNat 12

/-- Drop characters satisfying `p` from both ends (`strings.Trim`). -/
def trimP (p : Char → Bool) (s : List Char) : List Char :=
  ((s.dropWhile p).reverse.dropWhile p).reverse

/-- `strings.TrimSpace`. -/
def trimSpace (s : List Char) : List Char := trimP goIsSpace s

/-- `strings.Trim(s, "\x60")`: strip surrounding backticks. -/
def trimBackticks (s : List Char) : List Char := trimP (fun c => c = backtickCh) s

/-- `strings.Split(s, sep)` for a one-character separator: every occurrence
splits, and the empty string yields one empty field. -/
def splitOnChar (sep : Char) : List Char → List (List Char)
  | [] => [[]]
  | c :: cs =>
    if c = sep then [] :: splitOnChar sep cs
    else
      match splitOnChar sep cs with
      | [] => [[c]]
      | h :: t => (c :: h) :: t

/-- `strings.SplitN(s, sep, 2)` for a one-character separator: at most one
split, at the first occurrence. -/
def splitN2 (sep : Char) (s : List Char) : List (List Char) :=
  let pre := s.takeWhile (fun c => !(c = sep))
  match s.dropWhile (fun c => !(c = sep)) with
  | [] => [pre]
  | _ :: post => [pre, post]

/-- `strings.HasPrefix`. -/
def startsWith : List Char → List Char → Bool
  | [], _ => true
  | _ :: _, [] => false
  | p :: ps, c :: cs => p = c && startsWith ps cs

/-- Decimal rendering of a natural number (`fmt.Sprintf("%d", n)`). -/
def natChars (n : Nat) : List Char := Nat.toDigits 10 n

/-- Decimal rendering of an integer (`fmt.Sprintf("%d", i)`). -/
def intChars (i : Int) : List Char :=
  if i < 0 then '-' :: natChars i.natAbs else natChars i.natAbs

/-- `strconv.ParseInt(s, 10, 64)` / `strconv.Atoi` (overflow not modelled):
an optional leading sign followed by at least one decimal digit. -/
def goParseInt (s : List Char) : Option Int :=
  let digits : List Char → Option Nat := fun ds =>
    if ds = [] ∨ ¬ ds.all (fun c => c.isDigit) then none
    else some (ds.foldl (fun acc c => acc * 10 + (c.toNat - 48)) 0)
  match s with
  | '-' :: rest => (digits rest).map (fun n => -(n : Int))
  | '+' :: rest => (digits rest).map (fun n => (n : Int))
  | _ => (digits s).map (fun n => (n : Int))

/-! ## Buttons and `ParseButtons`

`welcome.ParseButtons` (part_001 lines 138–166) and
`broadcast.ParseButtons` (broadcasts.go lines 457–485) are line-for-line
identical; both are embedded by the single definition below. -/

/-- One inline URL button (`tgbotapi.NewInlineKeyboardButtonURL`). -/
structure Button where
  label : List Char
  url : List Char
deriving DecidableEq, Repr

/-- The per-line body of `ParseButtons`: trim the line, skip it when blank,
split on the first `|`; when the split yields two parts (i.e. the line
contains a `|`) produce a button from the trimmed label and the trimmed,
backtick-stripped URL.  The Go code checks only `len(parts) == 2`. -/
def parseLineButton (line : List Char) : Option Button :=
  let t := trimSpace line
  if t = [] then none
  else
    match splitN2 pipeCh t with
    | [a, b] => some ⟨trimSpace a, trimBackticks (trimSpace b)⟩
    | _ => none

/-- Pack a flat button list two per row (the `for i := 0; i < len; i += 2`
loop at the end of `ParseButtons`). -/
def pack2 {α : Type} : List α → List (List α)
  | [] => []
  | [a] => [[a]]
  | a :: b :: rest => [a, b] :: pack2 rest

/-- `ParseButtons`: split the raw spec on newlines, parse each line,
drop the lines that yield no button, pack two per row. -/
def ParseButtons (data : List Char) : List (List Button) :=
  pack2 ((splitOnChar nlCh data).filterMap parseLineButton)

/-! ## Broadcast-flow state constants and validation -/

/-- `StateNone = 0` (main.go). -/
def StateNone : Int := 0

/-- `StateBroadcastAwaitText = iota + 10`. -/
def StateBroadcastAwaitText : Int := 10

/-- `StateBroadcastAwaitMedia`. -/
def StateBroadcastAwaitMedia : Int := 11

/-- `StateBroadcastAwaitButtons`. -/
def StateBroadcastAwaitButtons : Int := 12

/-- `StateAwaitingWelcomeMessage = iota + 20` (welcome package). -/
def StateAwaitingWelcomeMessage : Int := 20

/-- `StateAwaitingWelcomeButtons`. -/
def StateAwaitingWelcomeButtons : Int := 21

/-- Scheme prefix `http://`. -/
def httpScheme : List Char := "http://".data

/-- Scheme prefix `https://`. -/
def httpsScheme : List Char := "https://".data

/-- The URL scheme check of the broadcast validation loop:
`strings.HasPrefix(url, "http://") || strings.HasPrefix(url, "https://")`. -/
def schemeOkB (u : List Char) : Bool :=
  startsWith httpScheme u || startsWith httpsScheme u

/-- Outcome of the `StateBroadcastAwaitButtons` validation loop
(broadcasts.go lines 222–245): either every line passes, or the first
offending line aborts with a format error (carrying the trimmed line) or a
URL error (carrying the trimmed, backtick-stripped URL).  Reported line
numbers are 1-based over the raw newline split. -/
inductive ButtonsValidation where
  | ok
  | formatErr (lineNo : Nat) (content : List Char)
  | urlErr (lineNo : Nat) (content : List Char)
deriving DecidableEq, Repr

/-- The validation loop body; `i` is the 0-based index of the head line. -/
def validateLines (i : Nat) : List (List Char) → ButtonsValidation
  | [] => .ok
  | l :: rest =>
    let t := trimSpace l
    if t = [] then validateLines (i + 1) rest
    else
      match splitN2 pipeCh t with
      | [a, b] =>
        if trimSpace a = [] ∨ trimSpace b = [] then .formatErr (i + 1) t
        else
          let url := trimBackticks (trimSpace b)
          if schemeOkB url then validateLines (i + 1) rest
          else .urlErr (i + 1) url
      | _ => .formatErr (i + 1) t

/-- Whether one line passes the broadcast validation loop: blank, or split
by the first `|` into two parts that are non-empty after trimming with a
scheme-valid URL. -/
def lineValidB (l : List Char) : Bool :=
  let t := trimSpace l
  if t = [] then true
  else
    match splitN2 pipeCh t with
    | [a, b] =>
      !(trimSpace a = []) && !(trimSpace b = []) &&
        schemeOkB (trimBackticks (trimSpace b))
    | _ => false

/-- The URL a well-formed line carries: the part after the first `|`,
trimmed and stripped of surrounding backticks. -/
def cleanUrlOf (l : List Char) : List Char :=
  match splitN2 pipeCh (trimSpace l) with
  | [_, b] => trimBackticks (trimSpace b)
  | _ => []

/-- A line that splits into two parts non-empty after trimming. -/
def lineFormatOkB (l : List Char) : Bool :=
  match splitN2 pipeCh (trimSpace l) with
  | [a, b] => !(trimSpace a = []) && !(trimSpace b = [])
  | _ => false

/-! ## Fixed user-facing strings (from the sources, verbatim) -/

/-- Blocked-user notice (main.go `handleUserMessage`). -/
def blockedNotice : List Char := "您已经被拉黑，暂时无法使用。".data

/-- Relay acknowledgement sent to the user after forwarding. -/
def userAckNote : List Char := "消息已收到，我们会尽快回复您。".data

/-- Apology when no forwarding target is configured. -/
def apologyNote : List Char := "抱歉，当前无法处理您的消息。请稍后再试或联系管理员。".data

/-- Default welcome text (welcome.go `HandleStartCommand`). -/
def defaultWelcome : List Char := "👋 欢迎光临，我是私信小助手。直接在这里发消息，技术会回复。".data

/-- Confirmation after storing a new welcome text. -/
def welcomeUpdatedNote : List Char := "✅ 欢迎语已更新。".data

/-- Confirmation after storing a new welcome button spec. -/
def buttonsUpdatedNote : List Char := "✅ 欢迎按钮已更新。".data

/-- Broadcast builder: text prompt (used by `StartBroadcastBuilder` and
`bbuild_set_text`). -/
def awaitTextPrompt : List Char := "请输入广播的文本内容，或点击下方按钮取消：".data

/-- Broadcast builder: empty-text re-prompt. -/
def awaitTextErrNote : List Char := "请输入有效的文本内容，或点击下方按钮取消。".data

/-- Broadcast builder: media prompt after text was accepted. -/
def mediaPromptAfterText : List Char := "文本已设置！请发送一张图片或一个视频作为广播的媒体内容，或点击下方按钮跳过：".data

/-- Broadcast builder: media prompt for `bbuild_set_media`. -/
def mediaPrompt : List Char := "请发送一张图片或一个视频作为广播的媒体内容，或点击下方按钮跳过：".data

/-- Broadcast builder: invalid-media re-prompt. -/
def mediaErrNote : List Char := "❌ 无效输入。请发送图片或视频，或点击下方按钮跳过。".data

/-- Broadcast builder: buttons prompt after media was accepted. -/
def buttonsPromptAfterMedia : List Char := "媒体已设置！请输入广播的按钮，每行一个，格式为：\n`按钮文字 | 链接`\n\n例如：\n`关注频道 | https://t.me/channel`\n`靓号商城 | https://t.me/store`\n或点击下方按钮跳过（清除按钮）：".data

/-- Broadcast builder: buttons prompt after media was skipped. -/
def buttonsPromptAfterSkip : List Char := "媒体已跳过！请输入广播的按钮，每行一个，格式为：\n`按钮文字 | 链接`\n\n例如：\n`关注频道 | https://t.me/channel`\n`靓号商城 | https://t.me/store`\n或点击下方按钮跳过（清除按钮）：".data

/-- Broadcast builder: buttons prompt for `bbuild_set_buttons`. -/
def buttonsPrompt : List Char := "请输入广播的按钮，每行一个，格式为：\n`按钮文字 | 链接`\n\n例如：\n`关注频道 | https://t.me/channel`\n`靓号商城 | https://t.me/store`\n或点击下方按钮跳过（清除按钮）：".data

/-- Button-line format error, 1-based line number and trimmed line. -/
def formatErrMsg (n : Nat) (line : List Char) : List Char :=
  "第 ".data ++ natChars n ++ " 行格式错误：".data ++ line ++
    "\n正确格式为：按钮文字 | 链接\n例如：关注频道 | https://t.me/channel".data

/-- Button-line URL error, 1-based line number and cleaned URL. -/
def urlErrMsg (n : Nat) (url : List Char) : List Char :=
  "第 ".data ++ natChars n ++ " 行 URL 无效：".data ++ url ++
    "\n请使用 http:// 或 https:// 开头的链接".data

/-- Preview rejected: empty draft. -/
def previewEmptyNote : List Char := "无法预览，广播内容为空。".data

/-- Send rejected: empty draft. -/
def sendEmptyNote : List Char := "无法发送，广播内容为空。".data

/-- Preview marker message. -/
def previewHeaderNote : List Char := "--- 预览 ---".data

/-- Cancellation notice. -/
def cancelledNote : List Char := "广播创建已取消。".data

/-- Callback toast after skipping media. -/
def skipMediaAck : List Char := "✅ 已跳过媒体设置".data

/-- Callback toast after skipping buttons. -/
def skipButtonsAck : List Char := "✅ 已跳过按钮设置".data

/-- Fan-out completion summary for `n` successful deliveries. -/
def summaryNote (n : Int) : List Char :=
  "✅ 广播发送完成，共成功发送给 ".data ++ intChars n ++ " 位用户。".data

/-- Empty blocked-list notice. -/
def noBlockedNote : List Char := "当前没有拉黑的用户。".data

/-- Reply relayed successfully. -/
def replyOkNote : List Char := "✅ 已回复给用户。".data

/-- Reply failed: sending to the user failed. -/
def replyFailNote (uid : Int) : List Char :=
  "❌ 回复用户 ".data ++ intChars uid ++ " 失败。".data

/-- Reply failed: unsupported content type. -/
def replyUnsupportedNote : List Char := "❌ 回复失败，不支持的消息类型。".data

/-- Reply failed: user ID not parseable from the replied-to message. -/
def replyNoIdNote : List Char := "❌ 回复失败，无法从此消息中解析到用户ID。".data

/-- Callback toast after unblocking. -/
def unblockAck : List Char := "✅ 用户已解除拉黑".data

/-- Callback toast after blocking. -/
def blockAck : List Char := "✅ 用户已拉黑".data

/-- Callback payload prefix of the broadcast builder. -/
def bbuildPre : List Char := "bbuild_".data

/-! ## Events, state and outputs -/

/-- A Telegram user (`tgbotapi.User`), restricted to the fields read. -/
structure TgUser where
  id : Int
  firstName : List Char
  lastName : List Char
  userName : List Char
deriving DecidableEq, Repr

/-- The fields of a replied-to message that the dispatcher reads. -/
structure ReplyInfo where
  text : List Char
  caption : List Char
deriving DecidableEq, Repr

/-- An inbound message (`tgbotapi.Message`), restricted to the fields read.
`command` is `some name` when `IsCommand()` holds, with `Command() = name`;
`photo` lists the file IDs of the size variants (the code takes the last). -/
structure Msg where
  chatID : Int
  messageID : Int
  sender : TgUser
  text : List Char
  caption : List Char
  photo : List (List Char)
  sticker : Option (List Char)
  video : Option (List Char)
  document : Option (List Char)
  replyTo : Option ReplyInfo
  command : Option (List Char)
deriving DecidableEq, Repr

/-- An inbound callback query: the chat and message it is attached to and
its payload string. -/
structure Cb where
  chatID : Int
  msgID : Int
  data : List Char
deriving DecidableEq, Repr

namespace Broadcast

/-- `broadcast.Message`: the draft under construction. -/
structure Message where
  text : List Char
  mediaID : List Char
  mtype : List Char
  buttons : List (List Button)
deriving DecidableEq, Repr

/-- The zero value `Message{}`. -/
def emptyMessage : Message := ⟨[], [], [], []⟩

end Broadcast

/-- The in-memory maps shared by the dispatcher and both flow managers:
`adminStates`, `broadcastManager.Broadcasts`,
`broadcastManager.BroadcastPromptMessageIDs`. -/
structure MState where
  adminStates : Int → Option Int
  broadcasts : Int → Option Broadcast.Message
  promptIDs : Int → Option Int

/-- The Redis-backed state: the known-user set, the blocked set, the two
welcome config strings (absent key = empty string) and the per-user info
hashes (absent fields = empty strings). -/
structure RState where
  knownUsers : List Int
  blocked : List Int
  welcomeMsg : List Char
  welcomeButtons : List Char
  userInfo : Int → List Char × List Char × List Char

/-- Process configuration: the admin allowlist and the forwarding chat. -/
structure BotCfg where
  adminIDs : List Int
  forwardToAdminID : Int

/-- Content of an outbound non-text message. -/
inductive MsgBody where
  | text (t : List Char)
  | sticker (fid : List Char)
  | photo (fid : List Char) (caption : List Char)
  | video (fid : List Char) (caption : List Char)
  | document (fid : List Char) (caption : List Char)
deriving DecidableEq, Repr

/-- Payload forwarded into the admin chat for a user message. -/
inductive RelayContent where
  | textMsg (escaped : List Char)
  | photo (fid : List Char)
  | stickerIntro
  | video (fid : List Char)
  | document (fid : List Char)
  | unsupported
deriving DecidableEq, Repr

/-- One page of the blocked-user list: the effective page number, the page
count, the displayed entries as (1-based overall index, id string) pairs
(display-name rendering from the user-info hash is elided) and whether the
previous/next pagination buttons are attached. -/
structure BlockedView where
  page : Int
  totalPages : Int
  entries : List (Nat × List Char)
  hasPrev : Bool
  hasNext : Bool
deriving DecidableEq, Repr

/-- A transport side effect. -/
inductive Output where
  | sendText (chat : Int) (body : List Char)
  | sendWelcome (chat : Int) (body : List Char) (kb : List (List Button))
  | sendBody (chat : Int) (body : MsgBody)
  | relay (chat : Int) (caption : List Char) (content : RelayContent)
  | deliver (chat : Int) (payload : Broadcast.Message)
  | builderMenu (chat : Int) (draft : Broadcast.Message)
  | blockedList (chat : Int) (view : BlockedView)
  | stats (chat : Int) (total active blockedCount : Int)
  | deleteMessage (chat : Int) (msgID : Int)
  | answerCallback (note : List Char)
  | setCommands (chat : Int)
deriving DecidableEq, Repr

/-- Is this output a fan-out delivery attempt (`sendComplexMessage`)? -/
def Output.isDeliver : Output → Bool
  | .deliver _ _ => true
  | _ => false

/-- Is this output a forward of a user message into the admin chat? -/
def Output.isRelay : Output → Bool
  | .relay _ _ _ => true
  | .sendBody _ _ => true
  | _ => false

/-- Write one `adminStates` entry. -/
def MState.setState (m : MState) (chat : Int) (tag : Int) : MState :=
  { m with adminStates := fun x => if x = chat then some tag else m.adminStates x }

/-- Write one `Broadcasts` entry. -/
def MState.setDraft (m : MState) (chat : Int) (d : Broadcast.Message) : MState :=
  { m with broadcasts := fun x => if x = chat then some d else m.broadcasts x }

/-- Delete one `Broadcasts` entry (`delete(m.Broadcasts, chatID)`). -/
def MState.delDraft (m : MState) (chat : Int) : MState :=
  { m with broadcasts := fun x => if x = chat then none else m.broadcasts x }

/-- Delete one prompt-handle entry. -/
def MState.delPrompt (m : MState) (chat : Int) : MState :=
  { m with promptIDs := fun x => if x = chat then none else m.promptIDs x }

namespace Broadcast

/-- Media kind `photo`. -/
def photoKind : List Char := "photo".data

/-- Media kind `video`. -/
def videoKind : List Char := "video".data

/-- Callback payload `bbuild_set_text`. -/
def actSetText : List Char := "bbuild_set_text".data

/-- Callback payload `bbuild_set_media`. -/
def actSetMedia : List Char := "bbuild_set_media".data

/-- Callback payload `bbuild_skip_media`. -/
def actSkipMedia : List Char := "bbuild_skip_media".data

/-- Callback payload `bbuild_set_buttons`. -/
def actSetButtons : List Char := "bbuild_set_buttons".data

/-- Callback payload `bbuild_skip_buttons`. -/
def actSkipButtons : List Char := "bbuild_skip_buttons".data

/-- Callback payload `bbuild_preview`. -/
def actPreview : List Char := "bbuild_preview".data

/-- Callback payload `bbuild_cancel`. -/
def actCancel : List Char := "bbuild_cancel".data

/-- Callback payload `bbuild_send`. -/
def actSend : List Char := "bbuild_send".data

/-- `sendBroadcastBuilderMenu`: delete the previously tracked menu message
(the zero-value read `m.BroadcastPromptMessageIDs[chatID] != 0`), send a
fresh menu rendering the draft, and record the new menu's message ID
(`freshID`, the ID Telegram assigned to the sent message). -/
def sendBroadcastBuilderMenu (freshID : Int) (m : MState) (chatID : Int) :
    MState × List Output :=
  let draft := (m.broadcasts chatID).getD emptyMessage
  let old := (m.promptIDs chatID).getD 0
  let dels : List Output := if old = 0 then [] else [Output.deleteMessage chatID old]
  ({ m with promptIDs := fun x => if x = chatID then some freshID else m.promptIDs x },
   dels ++ [Output.builderMenu chatID draft])

/-- `StartBroadcastBuilder`: create an empty draft, enter `AwaitText`,
prompt for the text. -/
def StartBroadcastBuilder (m : MState) (chatID : Int) : MState × List Output :=
  ((m.setDraft chatID emptyMessage).setState chatID StateBroadcastAwaitText,
   [Output.sendText chatID awaitTextPrompt])

/-- `sendBroadcastPreview`: reject an empty draft with a notice, otherwise
send the preview marker followed by the composed message
(`sendComplexMessage`) back to the admin only. -/
def sendBroadcastPreview (m : MState) (chatID : Int) : List Output :=
  let broadcast := (m.broadcasts chatID).getD emptyMessage
  if broadcast.text = [] ∧ broadcast.mediaID = [] then
    [Output.sendText chatID previewEmptyNote]
  else
    [Output.sendText chatID previewHeaderNote, Output.deliver chatID broadcast]

/-- `executeBroadcast`: reject an empty draft with a notice; otherwise
fan out the composed message to every known user (the stored decimal ID
strings are parsed back with `strconv.ParseInt`; a zero parse result is
skipped) and send the completion summary.  Deliveries are modelled as
succeeding, so the reported count is the number of targets. -/
def executeBroadcast (m : MState) (users : List Int) (chatID : Int) : List Output :=
  let broadcast := (m.broadcasts chatID).getD emptyMessage
  if broadcast.text = [] ∧ broadcast.mediaID = [] then
    [Output.sendText chatID sendEmptyNote]
  else
    let targets := users.filter (fun u => !(u = 0))
    targets.map (fun u => Output.deliver u broadcast) ++
      [Output.sendText chatID (summaryNote targets.length)]

/-- `broadcast.Manager.HandleCallbackQuery`: callbacks without the
`bbuild_` prefix are not claimed; every other payload is acknowledged and
dispatched, and the function returns `true` even for an unknown `bbuild_*`
payload. -/
def HandleCallbackQuery (freshID : Int) (users : List Int) (m : MState) (q : Cb) :
    Bool × MState × List Output :=
  if !(startsWith bbuildPre q.data) then (false, m, [])
  else
    let chatID := q.chatID
    let ack : List Output := [Output.answerCallback []]
    if q.data = actSetText then
      (true, m.setState chatID StateBroadcastAwaitText,
       ack ++ [Output.sendText chatID awaitTextPrompt])
    else if q.data = actSetMedia then
      (true, m.setState chatID StateBroadcastAwaitMedia,
       ack ++ [Output.sendText chatID mediaPrompt])
    else if q.data = actSkipMedia then
      let cur := (m.broadcasts chatID).getD emptyMessage
      let m1 := (m.setDraft chatID { cur with mediaID := [], mtype := [] }).setState
        chatID StateBroadcastAwaitButtons
      (true, m1,
       ack ++ [Output.answerCallback skipMediaAck,
               Output.sendText chatID buttonsPromptAfterSkip])
    else if q.data = actSetButtons then
      (true, m.setState chatID StateBroadcastAwaitButtons,
       ack ++ [Output.sendText chatID buttonsPrompt])
    else if q.data = actSkipButtons then
      let cur := (m.broadcasts chatID).getD emptyMessage
      let m1 := (m.setDraft chatID { cur with buttons := [] }).setState chatID StateNone
      let menu := sendBroadcastBuilderMenu freshID m1 chatID
      (true, menu.1, ack ++ [Output.answerCallback skipButtonsAck] ++ menu.2)
    else if q.data = actPreview then
      (true, m, ack ++ sendBroadcastPreview m chatID)
    else if q.data = actCancel then
      let m1 := ((m.setState chatID StateNone).delDraft chatID).delPrompt chatID
      (true, m1,
       ack ++ [Output.deleteMessage chatID q.msgID, Output.sendText chatID cancelledNote])
    else if q.data = actSend then
      let outs := executeBroadcast m users chatID
      let m1 := ((m.setState chatID StateNone).delDraft chatID).delPrompt chatID
      (true, m1, ack ++ outs ++ [Output.deleteMessage chatID q.msgID])
    else (true, m, ack)

/-- `broadcast.Manager.HandleMessageInput`: returns `false` only when the
chat has no `adminStates` entry at all; with an entry present the switch
dispatches on the three builder states and the function returns `true`
afterwards — also when none of the three cases matched. -/
def HandleMessageInput (freshID : Int) (m : MState) (msg : Msg) :
    Bool × MState × List Output :=
  let chatID := msg.chatID
  match m.adminStates chatID with
  | none => (false, m, [])
  | some state =>
    let currentBroadcast := (m.broadcasts chatID).getD emptyMessage
    if state = StateBroadcastAwaitText then
      if msg.text = [] then (true, m, [Output.sendText chatID awaitTextErrNote])
      else
        let m1 := (m.setDraft chatID { currentBroadcast with text := msg.text }).setState
          chatID StateBroadcastAwaitMedia
        (true, m1,
         [Output.deleteMessage chatID msg.messageID,
          Output.sendText chatID mediaPromptAfterText])
    else if state = StateBroadcastAwaitMedia then
      let media : Option (List Char × List Char) :=
        match msg.photo.getLast? with
        | some fid => some (fid, photoKind)
        | none =>
          match msg.video with
          | some fid => some (fid, videoKind)
          | none => none
      match media with
      | none => (true, m, [Output.sendText chatID mediaErrNote])
      | some fk =>
        let m1 := (m.setDraft chatID
            { currentBroadcast with mediaID := fk.1, mtype := fk.2 }).setState
          chatID StateBroadcastAwaitButtons
        (true, m1,
         [Output.deleteMessage chatID msg.messageID,
          Output.sendText chatID buttonsPromptAfterMedia])
    else if state = StateBroadcastAwaitButtons then
      match validateLines 0 (splitOnChar nlCh msg.text) with
      | .formatErr n c => (true, m, [Output.sendText chatID (formatErrMsg n c)])
      | .urlErr n c => (true, m, [Output.sendText chatID (urlErrMsg n c)])
      | .ok =>
        let m1 := (m.setDraft chatID
            { currentBroadcast with buttons := ParseButtons msg.text }).setState
          chatID StateNone
        let menu := sendBroadcastBuilderMenu freshID m1 chatID
        (true, menu.1, [Output.deleteMessage chatID msg.messageID] ++ menu.2)
    else (true, m, [])

end Broadcast

namespace Welcome

/-- Prompt shown by `StartSetWelcomeProcess` (store-error branch elided). -/
def setWelcomePrompt (cur : List Char) : List Char :=
  "当前欢迎语：\n".data ++ (if cur = [] then "（当前无欢迎语）".data else cur) ++
    "\n\n请输入新的欢迎语文本（可基于当前内容修改）：".data

/-- Prompt shown by `StartSetButtonsProcess` (store-error branch elided). -/
def setButtonsPrompt (cur : List Char) : List Char :=
  "当前欢迎按钮：\n".data ++ (if cur = [] then "（当前无按钮）".data else cur) ++
    "\n\n请输入新的欢迎按钮，每行一个，格式为：\n`按钮文字 | 链接`\n\n例如：\n`关注频道 | https://t.me/channel`\n`靓号商城 | https://t.me/store`\n（可基于当前内容修改）".data

/-- `welcome.Manager.HandleStartCommand`: send the stored welcome text
(default when absent/empty) with the keyboard parsed from the stored
button spec (no keyboard when the spec is absent/empty). -/
def HandleStartCommand (r : RState) (chatID : Int) : List Output :=
  let t := if r.welcomeMsg = [] then defaultWelcome else r.welcomeMsg
  let kb := if r.welcomeButtons = [] then [] else ParseButtons r.welcomeButtons
  [Output.sendWelcome chatID t kb]

/-- `StartSetWelcomeProcess`: show the current text, enter
`AwaitingWelcomeMessage`. -/
def StartSetWelcomeProcess (r : RState) (m : MState) (chatID : Int) :
    MState × List Output :=
  (m.setState chatID StateAwaitingWelcomeMessage,
   [Output.sendText chatID (setWelcomePrompt r.welcomeMsg)])

/-- `StartSetButtonsProcess`: show the current spec, enter
`AwaitingWelcomeButtons`. -/
def StartSetButtonsProcess (r : RState) (m : MState) (chatID : Int) :
    MState × List Output :=
  (m.setState chatID StateAwaitingWelcomeButtons,
   [Output.sendText chatID (setButtonsPrompt r.welcomeButtons)])

/-- `welcome.Manager.HandleAdminMessageInput`: looks up the state at
`msg.From.ID`; only the two welcome states are claimed — any other value
(including a `None`/0 entry) falls through the switch and returns `false`.
On acceptance the raw text is stored verbatim, the state at `msg.Chat.ID`
is cleared to 0, a confirmation is sent and the welcome is re-rendered. -/
def HandleAdminMessageInput (r : RState) (m : MState) (msg : Msg) :
    Bool × RState × MState × List Output :=
  match m.adminStates msg.sender.id with
  | none => (false, r, m, [])
  | some state =>
    if state = StateAwaitingWelcomeMessage then
      let r1 := { r with welcomeMsg := msg.text }
      (true, r1, m.setState msg.chatID StateNone,
       [Output.sendText msg.chatID welcomeUpdatedNote] ++ HandleStartCommand r1 msg.chatID)
    else if state = StateAwaitingWelcomeButtons then
      let r1 := { r with welcomeButtons := msg.text }
      (true, r1, m.setState msg.chatID StateNone,
       [Output.sendText msg.chatID buttonsUpdatedNote] ++ HandleStartCommand r1 msg.chatID)
    else (false, r, m, [])

end Welcome

/-! ## Dispatcher (main.go) -/

/-- `UsersPerPage = 10`. -/
def UsersPerPage : Nat := 10

/-- The MarkdownV2 reserved characters escaped by `escapeMarkdownV2`
(the braces are written as `\x7b`/`\x7d`). -/
def mdReserved : List Char := "_*[]()~`>#+-=|\x7b\x7d.!".data

/-- `escapeMarkdownV2`: prefix every reserved character with a backslash.
The Go code runs one `strings.ReplaceAll` per reserved character; since the
replacements insert only backslashes (never a reserved character) the
sequential passes equal this single pointwise pass. -/
def escapeMarkdownV2 (t : List Char) : List Char :=
  (t.map (fun c => if c ∈ mdReserved then ['\\', c] else [c])).flatten

/-- The caption heading a forwarded user message:
`收到来自用户 [NAME \(ID\)](tg://user?id=ID) 的消息:`. -/
def relayCaption (name : List Char) (uid : Int) : List Char :=
  "收到来自用户 [".data ++ name ++ " \\(".data ++ intChars uid ++
    "\\)](tg://user?id=".data ++ intChars uid ++ ") 的消息:".data

/-- The reply-target lookup: leftmost match of the regex `\((\d+)\)` —
an opening parenthesis, a maximal non-empty digit run, a closing
parenthesis — converted with `strconv.ParseInt`. -/
def findParenInt : List Char → Option Int
  | [] => none
  | c :: rest =>
    if c = '(' then
      match rest.takeWhile (fun ch => ch.isDigit),
            rest.dropWhile (fun ch => ch.isDigit) with
      | d :: ds, ')' :: _ =>
        some (((d :: ds).foldl (fun acc ch => acc * 10 + (ch.toNat - 48)) 0 : Nat) : Int)
      | _, _ => findParenInt rest
    else findParenInt rest

/-- `handleListBlocked` (pagination core): `none` models the early return
for an empty blocked list; otherwise compute the page count at
`UsersPerPage`, reset any page outside `[1, totalPages]` to 1, slice the
list, number the entries from `start+1`, and attach previous/next buttons
only when there is more than one page. -/
def handleListBlocked (blockedIDs : List (List Char)) (page : Int) : Option BlockedView :=
  if blockedIDs = [] then none
  else
    let total := blockedIDs.length
    let totalPages : Nat := (total + UsersPerPage - 1) / UsersPerPage
    let p : Int := if page < 1 ∨ page > (totalPages : Int) then 1 else page
    let start : Nat := (p - 1).toNat * UsersPerPage
    let stop : Nat := min (start + UsersPerPage) total
    let currentIDs := (blockedIDs.drop start).take (stop - start)
    some { page := p
           totalPages := (totalPages : Int)
           entries := currentIDs.enum.map (fun pr => (start + pr.1 + 1, pr.2))
           hasPrev := decide (1 < totalPages) && decide (1 < p)
           hasNext := decide (1 < totalPages) && decide (p < (totalPages : Int)) }

/-- `handleUserStats`: `(totalUsers, activeUsers, blockedCount)` with
`activeUsers := totalUsers - blockedCount` — a plain difference of the two
set sizes, with no intersection of the sets. -/
def handleUserStats (known blocked : List Int) : Int × Int × Int :=
  ((known.length : Int), (known.length : Int) - (blocked.length : Int),
   (blocked.length : Int))

/-- Command name `start`. -/
def cmdStart : List Char := "start".data

/-- Command name `setwelcome`. -/
def cmdSetWelcome : List Char := "setwelcome".data

/-- Command name `setbuttons`. -/
def cmdSetButtons : List Char := "setbuttons".data

/-- Command name `broadcast`. -/
def cmdBroadcast : List Char := "broadcast".data

/-- Command name `listblocked`. -/
def cmdListBlocked : List Char := "listblocked".data

/-- Command name `stats`. -/
def cmdStats : List Char := "stats".data

/-- `handleAdminStatefulMessage`: try the welcome manager, then the
broadcast manager; if neither claims the message it is a dead end (logged
only, no reply, no state change). -/
def handleAdminStatefulMessage (freshID : Int) (r : RState) (m : MState) (msg : Msg) :
    RState × MState × List Output :=
  let w := Welcome.HandleAdminMessageInput r m msg
  if w.1 then (w.2.1, w.2.2.1, w.2.2.2)
  else
    let bc := Broadcast.HandleMessageInput freshID m msg
    if bc.1 then (r, bc.2.1, bc.2.2) else (r, m, [])

/-- `handleAdminMessage`: the reply-to-user relay path (active when the
message replies to something inside the forwarding chat), then the command
switch, then the stateful fallthrough. -/
def handleAdminMessage (b : BotCfg) (freshID : Int) (r : RState) (m : MState) (msg : Msg) :
    RState × MState × List Output :=
  if msg.replyTo.isSome ∧ b.forwardToAdminID = msg.chatID then
    let rt := msg.replyTo.getD ⟨[], []⟩
    let textToParse := if rt.text ≠ [] then rt.text
      else if rt.caption ≠ [] then rt.caption else []
    let uid : Int := if textToParse ≠ [] then (findParenInt textToParse).getD 0 else 0
    if uid = 0 then (r, m, [Output.sendText b.forwardToAdminID replyNoIdNote])
    else
      let body : Option MsgBody :=
        if msg.text ≠ [] then some (MsgBody.text msg.text)
        else
          match msg.sticker with
          | some fid => some (MsgBody.sticker fid)
          | none =>
            match msg.photo.getLast? with
            | some fid => some (MsgBody.photo fid msg.caption)
            | none =>
              match msg.video with
              | some fid => some (MsgBody.video fid msg.caption)
              | none => msg.document.map (fun fid => MsgBody.document fid msg.caption)
      match body with
      | some bd =>
        (r, m, [Output.sendBody uid bd, Output.sendText b.forwardToAdminID replyOkNote])
      | none => (r, m, [Output.sendText b.forwardToAdminID replyUnsupportedNote])
  else
    match msg.command with
    | some c =>
      if c = cmdStart then
        (r, m, [Output.setCommands msg.chatID] ++ Welcome.HandleStartCommand r msg.chatID)
      else if c = cmdSetWelcome then
        let w := Welcome.StartSetWelcomeProcess r m msg.chatID
        (r, w.1, w.2)
      else if c = cmdSetButtons then
        let w := Welcome.StartSetButtonsProcess r m msg.chatID
        (r, w.1, w.2)
      else if c = cmdBroadcast then
        let bc := Broadcast.StartBroadcastBuilder m msg.chatID
        (r, bc.1, bc.2)
      else if c = cmdListBlocked then
        match handleListBlocked (r.blocked.map intChars) 1 with
        | none => (r, m, [Output.sendText msg.chatID noBlockedNote])
        | some v => (r, m, [Output.blockedList msg.chatID v])
      else if c = cmdStats then
        let s := handleUserStats r.knownUsers r.blocked
        (r, m, [Output.stats msg.chatID s.1 s.2.1 s.2.2])
      else handleAdminStatefulMessage freshID r m msg
    | none => handleAdminStatefulMessage freshID r m msg

/-- `handleUserMessage`: blocked users get only the fixed notice; `/start`
renders the welcome; anything else is forwarded into the configured admin
chat (with the escaped caption; the block/unblock and direct-message
buttons attached to the forward are elided) and acknowledged, or met with
the apology when no forwarding chat is configured. -/
def handleUserMessage (b : BotCfg) (r : RState) (msg : Msg) : List Output :=
  if msg.sender.id ∈ r.blocked then [Output.sendText msg.chatID blockedNotice]
  else if msg.command = some cmdStart then
    [Output.setCommands msg.chatID] ++ Welcome.HandleStartCommand r msg.chatID
  else if b.forwardToAdminID = 0 then [Output.sendText msg.chatID apologyNote]
  else
    let caption := relayCaption (escapeMarkdownV2 msg.sender.firstName) msg.sender.id
    let fwd := b.forwardToAdminID
    let relayOuts : List Output :=
      if msg.text ≠ [] then
        [Output.relay fwd caption (RelayContent.textMsg (escapeMarkdownV2 msg.text))]
      else
        match msg.photo.getLast? with
        | some fid => [Output.relay fwd caption (RelayContent.photo fid)]
        | none =>
          match msg.sticker with
          | some fid =>
            [Output.sendBody fwd (MsgBody.sticker fid),
             Output.relay fwd caption RelayContent.stickerIntro]
          | none =>
            match msg.video with
            | some fid => [Output.relay fwd caption (RelayContent.video fid)]
            | none =>
              match msg.document with
              | some fid => [Output.relay fwd caption (RelayContent.document fid)]
              | none => [Output.relay fwd caption RelayContent.unsupported]
    relayOuts ++ [Output.sendText msg.chatID userAckNote]

/-- `handleMessage`: admins to admin handling, everyone else to the user
path (which never mutates the shared state). -/
def handleMessage (b : BotCfg) (freshID : Int) (r : RState) (m : MState) (msg : Msg) :
    RState × MState × List Output :=
  if msg.sender.id ∈ b.adminIDs then handleAdminMessage b freshID r m msg
  else (r, m, handleUserMessage b r msg)

/-- `cache.StoreUserInfo`: write the sender's name fields into the
per-user hash. -/
def storeUserInfo (r : RState) (u : TgUser) : RState :=
  { r with userInfo := fun x =>
      if x = u.id then (u.firstName, u.lastName, u.userName) else r.userInfo x }

/-- `cache.CheckAndAddUser`: `SAdd` of the sender into the known-user set. -/
def checkAndAddUser (known : List Int) (uid : Int) : List Int :=
  if uid ∈ known then known else known ++ [uid]

/-- `handleUpdate` for a message update: store the sender's info, add the
sender to the known-user set only when not blocked, then route the
message. -/
def handleUpdate (b : BotCfg) (freshID : Int) (r : RState) (m : MState) (msg : Msg) :
    RState × MState × List Output :=
  let r1 := storeUserInfo r msg.sender
  let r2 := if msg.sender.id ∈ r1.blocked then r1
    else { r1 with knownUsers := checkAndAddUser r1.knownUsers msg.sender.id }
  handleMessage b freshID r2 m msg

/-- Callback payload prefix `unblock_`. -/
def unblockPre : List Char := "unblock_".data

/-- Callback payload prefix `page_prev_`. -/
def pagePrevPre : List Char := "page_prev_".data

/-- Callback payload prefix `page_next_`. -/
def pageNextPre : List Char := "page_next_".data

/-- Callback payload prefix `block_`. -/
def blockPre : List Char := "block_".data

/-- `handleCallbackQuery` (dispatcher): unblock, pagination and block
payloads are parsed by splitting on `_`; malformed payloads return with no
output at all.  Everything else is offered to the broadcast manager, and an
unclaimed callback is merely acknowledged. -/
def handleCallbackQuery (freshID : Int) (r : RState) (m : MState) (q : Cb) :
    RState × MState × List Output :=
  if startsWith unblockPre q.data then
    match splitOnChar '_' q.data with
    | [_, idStr] =>
      match goParseInt idStr with
      | some uid =>
        let r1 := { r with blocked := r.blocked.filter (fun x => !(x = uid)) }
        let listOuts : List Output :=
          match handleListBlocked (r1.blocked.map intChars) 1 with
          | none => [Output.sendText q.chatID noBlockedNote]
          | some v => [Output.blockedList q.chatID v]
        (r1, m, [Output.answerCallback unblockAck] ++ listOuts)
      | none => (r, m, [])
    | _ => (r, m, [])
  else if startsWith pagePrevPre q.data ∨ startsWith pageNextPre q.data then
    match splitOnChar '_' q.data with
    | [_, _, pStr] =>
      match goParseInt pStr with
      | some newPage =>
        let listOuts : List Output :=
          match handleListBlocked (r.blocked.map intChars) newPage with
          | none => [Output.sendText q.chatID noBlockedNote]
          | some v => [Output.blockedList q.chatID v]
        (r, m, listOuts ++ [Output.answerCallback []])
      | none => (r, m, [])
    | _ => (r, m, [])
  else if startsWith blockPre q.data then
    match splitOnChar '_' q.data with
    | [_, idStr] =>
      match goParseInt idStr with
      | some uid =>
        ({ r with blocked := checkAndAddUser r.blocked uid }, m,
         [Output.answerCallback blockAck])
      | none => (r, m, [])
    | _ => (r, m, [])
  else
    let bc := Broadcast.HandleCallbackQuery freshID r.knownUsers m q
    if bc.1 then (r, bc.2.1, bc.2.2) else (r, m, [Output.answerCallback []])

/-! ## Spec-side definitions (for the refinement/round-trip claims) -/

/-- The URL a well-formed broadcast button line carries, recomputed from
the first-`|` split via takeWhile/dropWhile (spec-side view of the
validation loop's `url` variable). -/
def buttonOfLine (line : List Char) : Button :=
  let t := trimSpace line
  ⟨trimSpace (t.takeWhile (fun c => !(c = pipeCh))),
   trimBackticks (trimSpace ((t.dropWhile (fun c => !(c = pipeCh))).drop 1))⟩

/-- Modelled from the spec: serialize one button as the line
`label | url` (the round-trip claim's `serialize`). -/
def serializeButton (b : Button) : List Char :=
  b.label ++ ' ' :: pipeCh :: ' ' :: b.url

/-- Join lines with newline separators (inverse view of
`strings.Split(data, "\n")`). -/
def joinLines : List (List Char) → List Char
  | [] => []
  | [l] => l
  | l :: ls => l ++ nlCh :: joinLines ls

/-- Modelled from the spec: serialize button rows to one `label | url`
line per button, in row-major order. -/
def serializeRows (rows : List (List Button)) : List Char :=
  joinLines (rows.flatten.map serializeButton)

/-- A label producible by the button-line grammar: non-empty, free of `|`
and newlines, and stable under trimming (no surrounding whitespace). -/
def GoodLabel (l : List Char) : Prop :=
  l ≠ [] ∧ pipeCh ∉ l ∧ nlCh ∉ l ∧ trimSpace l = l

/-- A URL producible by the button-line grammar: non-empty, free of
newlines, stable under trimming and carrying no surrounding backticks. -/
def GoodUrl (u : List Char) : Prop :=
  u ≠ [] ∧ nlCh ∉ u ∧ trimSpace u = u ∧ trimBackticks u = u

/-- A button whose label and URL the grammar can produce. -/
def GoodButton (b : Button) : Prop := GoodLabel b.label ∧ GoodUrl b.url

instance : DecidablePred GoodLabel := fun l => by unfold GoodLabel; infer_instance

instance : DecidablePred GoodUrl := fun u => by unfold GoodUrl; infer_instance

instance : DecidablePred GoodButton := fun b => by unfold GoodButton; infer_instance

/-! ## Concrete fixtures used by witnesses and counterexamples -/

/-- A state table holding exactly one entry. -/
def oneState (chat tag : Int) : Int → Option Int :=
  fun x => if x = chat then some tag else none

/-- A draft table holding exactly one entry. -/
def oneDraft (chat : Int) (d : Broadcast.Message) : Int → Option Broadcast.Message :=
  fun x => if x = chat then some d else none

/-- Sample plain text. -/
def fxHello : List Char := "hello".data

/-- Sample draft text. -/
def fxHi : List Char := "hi".data

/-- A button line whose URL lacks a scheme. -/
def fxBadUrlLine : List Char := "A | ftp://x".data

/-- The cleaned URL of `fxBadUrlLine`. -/
def fxBadUrl : List Char := "ftp://x".data

/-- A button line with two `|` separators whose URL is scheme-valid. -/
def fxMultiPipeLine : List Char := "A | https://x|y".data

/-- The URL stored for `fxMultiPipeLine`. -/
def fxMultiPipeUrl : List Char := "https://x|y".data

/-- A line with a `|` but an empty URL part. -/
def fxPipeOnly : List Char := "a|".data

/-- A sender first name. -/
def fxBo : List Char := "Bo".data

/-- Chat 1 sits in the broadcast `AwaitButtons` state with no draft. -/
def fxAwaitButtons : MState :=
  ⟨oneState 1 StateBroadcastAwaitButtons, fun _ => none, fun _ => none⟩

/-- Chat 1 sits in `AwaitButtons` with a text-only draft. -/
def fxAwaitButtonsDraft : MState :=
  ⟨oneState 1 StateBroadcastAwaitButtons, oneDraft 1 ⟨fxHi, [], [], []⟩, fun _ => none⟩

/-- Chat 1 has a cleared (`= 0`) state entry. -/
def fxCleared : MState := ⟨oneState 1 StateNone, fun _ => none, fun _ => none⟩

/-- No chat has any state entry. -/
def fxEmptyM : MState := ⟨fun _ => none, fun _ => none, fun _ => none⟩

/-- Chat 5 sits in `AwaitText` with an empty draft and a tracked prompt. -/
def fxAwaitTextEmptyDraft : MState :=
  ⟨oneState 5 StateBroadcastAwaitText, oneDraft 5 Broadcast.emptyMessage, oneState 5 33⟩

/-- A plain non-command admin text message in chat 1. -/
def fxMsg (t : List Char) : Msg :=
  { chatID := 1, messageID := 3, sender := ⟨1, [], [], []⟩, text := t, caption := []
    photo := [], sticker := none, video := none, document := none, replyTo := none
    command := none }

/-- A user message from sender 5 in chat 5. -/
def fxUserMsg : Msg :=
  { chatID := 5, messageID := 4, sender := ⟨5, fxBo, [], []⟩, text := fxHello
    caption := [], photo := [], sticker := none, video := none, document := none
    replyTo := none, command := none }

/-- An empty Redis state. -/
def fxEmptyR : RState := ⟨[], [], [], [], fun _ => ([], [], [])⟩

/-- A Redis state in which user 5 is blocked and unknown. -/
def fxBlockedR : RState := ⟨[7], [5], [], [], fun _ => ([], [], [])⟩

/-- The `bbuild_send` callback pressed on message 77 of chat 5. -/
def fxSendCb : Cb := ⟨5, 77, Broadcast.actSend⟩

/-- A process configuration: admin 7, forwarding chat 3. -/
def fxCfg : BotCfg := ⟨[7], 3⟩

/-- Twelve blocked-user ID strings. -/
def fxBlockedList : List (List Char) :=
  [['1'], ['2'], ['3'], ['4'], ['5'], ['6'], ['7'], ['8'], ['9'], ['a'], ['b'], ['c']]

/-- The view `handleListBlocked fxBlockedList 2` renders. -/
def fxBlockedView : BlockedView :=
  { page := 2, totalPages := 2, entries := [(11, ['b']), (12, ['c'])]
    hasPrev := true, hasNext := false }

/-- A grammar-producible URL. -/
def fxUrlX : List Char := "https://x".data

/-- A grammar-producible button. -/
def fxRowsBtn : Button := ⟨['J', 'o'], fxUrlX⟩

/-- One row of two grammar-producible buttons. -/
def fxRows : List (List Button) := [[fxRowsBtn, fxRowsBtn]]

/-- An admin message with empty text in chat 5. -/
def fxEmptyTextMsg : Msg :=
  { chatID := 5, messageID := 8, sender := ⟨5, [], [], []⟩, text := [], caption := []
    photo := [], sticker := none, video := none, document := none, replyTo := none
    command := none }


/-! ## Helper lemmas: packing, splitting, validation -/

theorem pack2_flatten {α : Type} (l : List α) : (pack2 l).flatten = l := by
  induction l using pack2.induct <;> simp [pack2, *]

theorem pack2_rows_small {α : Type} (l : List α) :
    (pack2 l).all (fun r => decide (r.length = 1) || decide (r.length = 2)) = true := by
  induction l using pack2.induct <;> simp [pack2, *]

theorem pack2_dropLast_rows_two {α : Type} (l : List α) :
    ((pack2 l).dropLast).all (fun r => decide (r.length = 2)) = true := by
  induction l using pack2.induct with
  | case1 => simp [pack2]
  | case2 a => simp [pack2]
  | case3 a b rest ih =>
    cases h : pack2 rest with
    | nil => simp [pack2, h]
    | cons x xs =>
      rw [show pack2 (a :: b :: rest) = [a, b] :: pack2 rest from rfl, h,
        List.dropLast_cons_of_ne_nil (by simp)]
      rw [h] at ih
      simp [ih]

theorem splitN2_nil (sep : Char) : splitN2 sep [] = [[]] := rfl

theorem takeWhile_append_sep (sep : Char) (a b : List Char) (h : sep ∉ a) :
    (a ++ sep :: b).takeWhile (fun c => !(c = sep)) = a := by
  induction a with
  | nil => simp [List.takeWhile_cons]
  | cons c cs ih =>
    simp only [List.mem_cons, not_or] at h
    have hc : ¬ c = sep := fun hh => h.1 hh.symm
    simp [List.takeWhile_cons, hc, ih h.2]

theorem dropWhile_append_sep (sep : Char) (a b : List Char) (h : sep ∉ a) :
    (a ++ sep :: b).dropWhile (fun c => !(c = sep)) = sep :: b := by
  induction a with
  | nil => simp [List.dropWhile_cons]
  | cons c cs ih =>
    simp only [List.mem_cons, not_or] at h
    have hc : ¬ c = sep := fun hh => h.1 hh.symm
    simp [List.dropWhile_cons, hc, ih h.2]

theorem splitN2_with_sep (sep : Char) (a b : List Char) (h : sep ∉ a) :
    splitN2 sep (a ++ sep :: b) = [a, b] := by
  unfold splitN2
  rw [takeWhile_append_sep sep a b h, dropWhile_append_sep sep a b h]

theorem splitN2_no_sep (sep : Char) (s : List Char) (h : sep ∉ s) :
    splitN2 sep s = [s] := by
  unfold splitN2
  have hd : s.dropWhile (fun c => !(c = sep)) = [] := by
    rw [List.dropWhile_eq_nil_iff]
    intro a ha
    have hne : ¬ a = sep := fun he => h (he ▸ ha)
    simp [hne]
  have ht : s.takeWhile (fun c => !(c = sep)) = s := by
    rw [List.takeWhile_eq_self_iff]
    intro a ha
    have hne : ¬ a = sep := fun he => h (he ▸ ha)
    simp [hne]
  rw [hd, ht]

theorem splitOnChar_no_sep (sep : Char) (l : List Char) (h : sep ∉ l) :
    splitOnChar sep l = [l] := by
  induction l with
  | nil => rfl
  | cons c cs ih =>
    simp only [List.mem_cons, not_or] at h
    have hc : ¬ c = sep := fun hh => h.1 hh.symm
    rw [splitOnChar, if_neg hc, ih h.2]

theorem splitOnChar_append_sep (sep : Char) (l t : List Char) (h : sep ∉ l) :
    splitOnChar sep (l ++ sep :: t) = l :: splitOnChar sep t := by
  induction l with
  | nil => simp [splitOnChar]
  | cons c cs ih =>
    simp only [List.mem_cons, not_or] at h
    have hc : ¬ c = sep := fun hh => h.1 hh.symm
    rw [List.cons_append, splitOnChar, if_neg hc, ih h.2]

theorem splitN2_two_ne_nil (sep : Char) (s a b2 : List Char)
    (h : splitN2 sep s = [a, b2]) : s ≠ [] := by
  intro hs
  rw [hs, splitN2_nil] at h
  exact absurd h (by simp)

theorem lineFormatOkB_elim (l : List Char) (h : lineFormatOkB l = true) :
    ∃ a b2, splitN2 pipeCh (trimSpace l) = [a, b2] ∧ trimSpace a ≠ [] ∧
      trimSpace b2 ≠ [] ∧ cleanUrlOf l = trimBackticks (trimSpace b2) ∧
      trimSpace l ≠ [] := by
  unfold lineFormatOkB at h
  rcases hs : splitN2 pipeCh (trimSpace l) with _ | ⟨a, _ | ⟨b2, _ | _⟩⟩ <;>
    rw [hs] at h <;> simp at h
  refine ⟨a, b2, rfl, h.1, h.2, ?_, splitN2_two_ne_nil pipeCh _ a b2 hs⟩
  unfold cleanUrlOf
  rw [hs]

theorem lineValidB_nonblank_elim (l : List Char) (hv : lineValidB l = true)
    (ht : trimSpace l ≠ []) :
    ∃ a b2, splitN2 pipeCh (trimSpace l) = [a, b2] ∧ trimSpace a ≠ [] ∧
      trimSpace b2 ≠ [] ∧ schemeOkB (trimBackticks (trimSpace b2)) = true := by
  unfold lineValidB at hv
  rw [if_neg ht] at hv
  rcases hs : splitN2 pipeCh (trimSpace l) with _ | ⟨a, _ | ⟨b2, _ | _⟩⟩ <;>
    rw [hs] at hv <;> simp at hv
  exact ⟨a, b2, rfl, hv.1.1, hv.1.2, hv.2⟩

theorem validateLines_cons_blank (i : Nat) (l : List Char) (rest : List (List Char))
    (h : trimSpace l = []) :
    validateLines i (l :: rest) = validateLines (i + 1) rest := by
  simp [validateLines, h]

theorem validateLines_cons_valid (i : Nat) (l : List Char) (rest : List (List Char))
    (h : lineValidB l = true) :
    validateLines i (l :: rest) = validateLines (i + 1) rest := by
  by_cases ht : trimSpace l = []
  · exact validateLines_cons_blank i l rest ht
  · obtain ⟨a, b2, hs, ha, hb2, hok⟩ := lineValidB_nonblank_elim l h ht
    rw [validateLines, if_neg ht, hs]
    simp [ha, hb2, hok]

theorem validateLines_cons_urlErr (i : Nat) (l : List Char) (rest : List (List Char))
    (hfmt : lineFormatOkB l = true) (hbad : schemeOkB (cleanUrlOf l) = false) :
    validateLines i (l :: rest) = .urlErr (i + 1) (cleanUrlOf l) := by
  obtain ⟨a, b2, hs, ha, hb2, hcu, ht⟩ := lineFormatOkB_elim l hfmt
  rw [validateLines, if_neg ht, hs]
  rw [hcu] at hbad ⊢
  simp [ha, hb2, hbad]

theorem validateLines_append (pre rest : List (List Char)) (i : Nat)
    (h : pre.all lineValidB = true) :
    validateLines i (pre ++ rest) = validateLines (i + pre.length) rest := by
  induction pre generalizing i with
  | nil => simp
  | cons l ls ih =>
    simp only [List.all_cons, Bool.and_eq_true] at h
    rw [List.cons_append, validateLines_cons_valid i l _ h.1, ih (i + 1) h.2]
    congr 1
    simp
    omega

theorem validateLines_cons_invalid (i : Nat) (l : List Char) (rest : List (List Char))
    (h : lineValidB l = false) :
    ∃ c, validateLines i (l :: rest) = .formatErr (i + 1) c ∨
      validateLines i (l :: rest) = .urlErr (i + 1) c := by
  have ht : trimSpace l ≠ [] := by
    intro hb
    rw [lineValidB, if_pos hb] at h
    exact absurd h (by simp)
  rw [lineValidB, if_neg ht] at h
  rcases hs : splitN2 pipeCh (trimSpace l) with _ | ⟨a, _ | ⟨b2, _ | _⟩⟩ <;> rw [hs] at h
  · exact ⟨trimSpace l, Or.inl (by rw [validateLines, if_neg ht, hs])⟩
  · exact ⟨trimSpace l, Or.inl (by rw [validateLines, if_neg ht, hs])⟩
  · by_cases hab : trimSpace a = [] ∨ trimSpace b2 = []
    · exact ⟨trimSpace l, Or.inl (by rw [validateLines, if_neg ht, hs]; simp [hab])⟩
    · push_neg at hab
      have hbad : schemeOkB (trimBackticks (trimSpace b2)) = false := by
        simp only [hab.1, hab.2, Bool.not_eq_true] at h
        simpa using h
      refine ⟨trimBackticks (trimSpace b2), Or.inr ?_⟩
      rw [validateLines, if_neg ht, hs]
      simp [hab.1, hab.2, hbad]
  · exact ⟨trimSpace l, Or.inl (by rw [validateLines, if_neg ht, hs])⟩

theorem validateLines_ok_iff (lines : List (List Char)) (i : Nat) :
    validateLines i lines = .ok ↔ lines.all lineValidB = true := by
  induction lines generalizing i with
  | nil => simp [validateLines]
  | cons l rest ih =>
    by_cases hv : lineValidB l = true
    · rw [validateLines_cons_valid i l rest hv]
      simp [hv, ih]
    · have hv' : lineValidB l = false := by simpa using hv
      obtain ⟨c, hc⟩ := validateLines_cons_invalid i l rest hv'
      rcases hc with hc | hc <;> rw [hc] <;> simp [hv']

theorem handleMessageInput_awaitButtons (freshID : Int) (m : MState) (msg : Msg)
    (hstate : m.adminStates msg.chatID = some StateBroadcastAwaitButtons) :
    Broadcast.HandleMessageInput freshID m msg =
      match validateLines 0 (splitOnChar nlCh msg.text) with
      | .formatErr n c => (true, m, [Output.sendText msg.chatID (formatErrMsg n c)])
      | .urlErr n c => (true, m, [Output.sendText msg.chatID (urlErrMsg n c)])
      | .ok =>
        let m1 := (m.setDraft msg.chatID
            { (m.broadcasts msg.chatID).getD Broadcast.emptyMessage with
              buttons := ParseButtons msg.text }).setState msg.chatID StateNone
        let menu := Broadcast.sendBroadcastBuilderMenu freshID m1 msg.chatID
        (true, menu.1, [Output.deleteMessage msg.chatID msg.messageID] ++ menu.2) := by
  unfold Broadcast.HandleMessageInput
  simp only [hstate]
  rfl

theorem handleCallbackQuery_send (freshID : Int) (users : List Int) (m : MState) (q : Cb)
    (hdata : q.data = Broadcast.actSend) :
    Broadcast.HandleCallbackQuery freshID users m q =
      (true, ((m.setState q.chatID StateNone).delDraft q.chatID).delPrompt q.chatID,
       [Output.answerCallback []] ++ Broadcast.executeBroadcast m users q.chatID ++
         [Output.deleteMessage q.chatID q.msgID]) := by
  unfold Broadcast.HandleCallbackQuery
  simp only [hdata]
  rfl

/-! ## Claim theorems -/

/-- C1 counterexample: chat 1's conversation state has been cleared to the
no-active-flow value (`Set(chatID, 0)`, the entry stays present), the
admin message is not a command — yet the broadcast manager's
`HandleMessageInput` returns `true` (claims the message), contradicting the
claim that both stateful handlers return `false` after a clear. -/
theorem c1_counterexample :
    fxCleared.adminStates 1 = some StateNone ∧
    (fxMsg fxHello).command = none ∧
    (Broadcast.HandleMessageInput 99 fxCleared (fxMsg fxHello)).1 = true := by
  decide

/-- C1 (amended): after a `Clear` (state entry set to 0 but present), the
welcome manager's `HandleAdminMessageInput` returns `false`, but the
broadcast manager's `HandleMessageInput` returns `true` while changing
nothing and sending nothing — the Dispatcher therefore records the message
as handled by the broadcast manager, not as a dead end.  Both handlers
return `false` only when the chat has no state entry at all. -/
theorem c1_amended_cleared_state_handling (freshID : Int) (r : RState)
    (m mAbs : MState) (msg : Msg)
    (h1 : m.adminStates msg.sender.id = some StateNone)
    (h2 : m.adminStates msg.chatID = some StateNone)
    (h3 : mAbs.adminStates msg.sender.id = none)
    (h4 : mAbs.adminStates msg.chatID = none) :
    Welcome.HandleAdminMessageInput r m msg = (false, r, m, []) ∧
    Broadcast.HandleMessageInput freshID m msg = (true, m, []) ∧
    Welcome.HandleAdminMessageInput r mAbs msg = (false, r, mAbs, []) ∧
    Broadcast.HandleMessageInput freshID mAbs msg = (false, mAbs, []) := by
  refine ⟨?_, ?_, ?_, ?_⟩
  · unfold Welcome.HandleAdminMessageInput
    simp only [h1]
    rfl
  · unfold Broadcast.HandleMessageInput
    simp only [h2]
    rfl
  · unfold Welcome.HandleAdminMessageInput
    simp only [h3]
  · unfold Broadcast.HandleMessageInput
    simp only [h4]

/-- Witness for C1 (amended) at chat 1, state cleared vs. absent. -/
theorem c1_amended_witness :
    Welcome.HandleAdminMessageInput fxEmptyR fxCleared (fxMsg fxHello) =
      (false, fxEmptyR, fxCleared, []) ∧
    Broadcast.HandleMessageInput 99 fxCleared (fxMsg fxHello) = (true, fxCleared, []) ∧
    Welcome.HandleAdminMessageInput fxEmptyR fxEmptyM (fxMsg fxHello) =
      (false, fxEmptyR, fxEmptyM, []) ∧
    Broadcast.HandleMessageInput 99 fxEmptyM (fxMsg fxHello) = (false, fxEmptyM, []) :=
  c1_amended_cleared_state_handling 99 fxEmptyR fxCleared fxEmptyM (fxMsg fxHello)
    (by decide) (by decide) rfl rfl

/-- C2: in the broadcast `AwaitButtons` state, an input whose first invalid
line is well-formed (`label | url`, both parts non-empty after trimming)
but has a URL without an `http://`/`https://` prefix after backtick
stripping is rejected: the handler claims the message, sends exactly the
URL-error notice naming that line's 1-based number and its cleaned URL
content, and leaves the entire manager state — conversation state and
draft (hence its stored buttons) — unchanged. -/
theorem c2_awaitButtons_badUrl_reports_and_preserves (freshID : Int) (m : MState)
    (msg : Msg) (pre : List (List Char)) (l : List Char) (rest : List (List Char))
    (hstate : m.adminStates msg.chatID = some StateBroadcastAwaitButtons)
    (hsplit : splitOnChar nlCh msg.text = pre ++ l :: rest)
    (hpre : pre.all lineValidB = true)
    (hfmt : lineFormatOkB l = true)
    (hbad : schemeOkB (cleanUrlOf l) = false) :
    Broadcast.HandleMessageInput freshID m msg =
      (true, m, [Output.sendText msg.chatID (urlErrMsg (pre.length + 1) (cleanUrlOf l))]) := by
  have hval : validateLines 0 (splitOnChar nlCh msg.text) =
      .urlErr (pre.length + 1) (cleanUrlOf l) := by
    rw [hsplit, validateLines_append pre (l :: rest) 0 hpre,
      validateLines_cons_urlErr (0 + pre.length) l rest hfmt hbad]
    norm_num
  rw [handleMessageInput_awaitButtons freshID m msg hstate, hval]

/-- Witness for C2: chat 1 in `AwaitButtons` receives `A | ftp://x`. -/
theorem c2_witness :
    Broadcast.HandleMessageInput 99 fxAwaitButtons (fxMsg fxBadUrlLine) =
      (true, fxAwaitButtons, [Output.sendText 1 (urlErrMsg 1 fxBadUrl)]) := by
  have h := c2_awaitButtons_badUrl_reports_and_preserves 99 fxAwaitButtons
    (fxMsg fxBadUrlLine) [] fxBadUrlLine [] (by decide) (by decide) rfl
    (by decide) (by decide)
  exact h

/-- C3: a broadcast draft with empty text and empty media is rejected by
both the Preview and the Send action with the respective empty-content
notice, and neither action produces any delivery attempt
(`sendComplexMessage`) to any user. -/
theorem c3_empty_draft_rejected_no_fanout (m : MState) (users : List Int) (chatID : Int)
    (h1 : ((m.broadcasts chatID).getD Broadcast.emptyMessage).text = [])
    (h2 : ((m.broadcasts chatID).getD Broadcast.emptyMessage).mediaID = []) :
    Broadcast.sendBroadcastPreview m chatID = [Output.sendText chatID previewEmptyNote] ∧
    Broadcast.executeBroadcast m users chatID = [Output.sendText chatID sendEmptyNote] ∧
    (Broadcast.sendBroadcastPreview m chatID).countP Output.isDeliver = 0 ∧
    (Broadcast.executeBroadcast m users chatID).countP Output.isDeliver = 0 := by
  have hp : Broadcast.sendBroadcastPreview m chatID =
      [Output.sendText chatID previewEmptyNote] := by
    simp only [Broadcast.sendBroadcastPreview]
    rw [if_pos ⟨h1, h2⟩]
  have he : Broadcast.executeBroadcast m users chatID =
      [Output.sendText chatID sendEmptyNote] := by
    simp only [Broadcast.executeBroadcast]
    rw [if_pos ⟨h1, h2⟩]
  refine ⟨hp, he, ?_, ?_⟩
  · rw [hp]; rfl
  · rw [he]; rfl

/-- Witness for C3: no draft exists for chat 9 (the zero-value draft). -/
theorem c3_witness :
    Broadcast.sendBroadcastPreview fxEmptyM 9 = [Output.sendText 9 previewEmptyNote] ∧
    Broadcast.executeBroadcast fxEmptyM [2, 3] 9 = [Output.sendText 9 sendEmptyNote] ∧
    (Broadcast.sendBroadcastPreview fxEmptyM 9).countP Output.isDeliver = 0 ∧
    (Broadcast.executeBroadcast fxEmptyM [2, 3] 9).countP Output.isDeliver = 0 :=
  c3_empty_draft_rejected_no_fanout fxEmptyM [2, 3] 9 rfl rfl

/-- C4 counterexample: chat 5 sits in `AwaitText` (tag 10) with an empty
draft entry; a `bbuild_send` callback is rejected for empty content (the
notice is sent) — yet the handler sets the state tag to 0 and deletes the
draft entry, contradicting the claim that a rejected Send leaves the state
tag and the draft exactly as they were. -/
theorem c4_counterexample :
    fxAwaitTextEmptyDraft.adminStates 5 = some StateBroadcastAwaitText ∧
    fxAwaitTextEmptyDraft.broadcasts 5 = some Broadcast.emptyMessage ∧
    (Broadcast.HandleCallbackQuery 99 [2, 3] fxAwaitTextEmptyDraft fxSendCb).2.2 =
      [Output.answerCallback [], Output.sendText 5 sendEmptyNote,
       Output.deleteMessage 5 77] ∧
    (Broadcast.HandleCallbackQuery 99 [2, 3] fxAwaitTextEmptyDraft fxSendCb).2.1.adminStates 5 =
      some StateNone ∧
    (Broadcast.HandleCallbackQuery 99 [2, 3] fxAwaitTextEmptyDraft fxSendCb).2.1.broadcasts 5 =
      none := by
  decide

/-- C4 (amended): message-input validation errors are atomic — an empty
`AwaitText` submission is answered inline and leaves the manager state
untouched — but the Send callback rejected for empty content is not: after
the inline empty-content notice the handler unconditionally clears the
state tag to `None` and deletes the draft and prompt entries. -/
theorem c4_amended_validation_atomicity (freshID : Int) (users : List Int)
    (m m2 : MState) (msg : Msg) (q : Cb)
    (hA1 : m.adminStates msg.chatID = some StateBroadcastAwaitText)
    (hA2 : msg.text = [])
    (hB1 : q.data = Broadcast.actSend)
    (hB2 : ((m2.broadcasts q.chatID).getD Broadcast.emptyMessage).text = [])
    (hB3 : ((m2.broadcasts q.chatID).getD Broadcast.emptyMessage).mediaID = []) :
    Broadcast.HandleMessageInput freshID m msg =
      (true, m, [Output.sendText msg.chatID awaitTextErrNote]) ∧
    Broadcast.HandleCallbackQuery freshID users m2 q =
      (true, ((m2.setState q.chatID StateNone).delDraft q.chatID).delPrompt q.chatID,
       [Output.answerCallback [], Output.sendText q.chatID sendEmptyNote,
        Output.deleteMessage q.chatID q.msgID]) ∧
    (Broadcast.HandleCallbackQuery freshID users m2 q).2.1.adminStates q.chatID =
      some StateNone ∧
    (Broadcast.HandleCallbackQuery freshID users m2 q).2.1.broadcasts q.chatID = none := by
  have hexec : Broadcast.executeBroadcast m2 users q.chatID =
      [Output.sendText q.chatID sendEmptyNote] := by
    simp only [Broadcast.executeBroadcast]
    rw [if_pos ⟨hB2, hB3⟩]
  have hcb := handleCallbackQuery_send freshID users m2 q hB1
  rw [hexec] at hcb
  refine ⟨?_, ?_, ?_, ?_⟩
  · unfold Broadcast.HandleMessageInput
    simp only [hA1, hA2]
    rfl
  · rw [hcb]
    rfl
  · rw [hcb]
    simp [MState.setState, MState.delDraft, MState.delPrompt]
  · rw [hcb]
    simp [MState.setState, MState.delDraft, MState.delPrompt]

/-- Witness for C4 (amended) at chat 5 with an empty draft. -/
theorem c4_amended_witness :
    Broadcast.HandleMessageInput 99 fxAwaitTextEmptyDraft fxEmptyTextMsg =
      (true, fxAwaitTextEmptyDraft, [Output.sendText 5 awaitTextErrNote]) ∧
    Broadcast.HandleCallbackQuery 99 [2, 3] fxAwaitTextEmptyDraft fxSendCb =
      (true, ((fxAwaitTextEmptyDraft.setState 5 StateNone).delDraft 5).delPrompt 5,
       [Output.answerCallback [], Output.sendText 5 sendEmptyNote,
        Output.deleteMessage 5 77]) ∧
    (Broadcast.HandleCallbackQuery 99 [2, 3] fxAwaitTextEmptyDraft fxSendCb).2.1.adminStates 5 =
      some StateNone ∧
    (Broadcast.HandleCallbackQuery 99 [2, 3] fxAwaitTextEmptyDraft fxSendCb).2.1.broadcasts 5 =
      none :=
  c4_amended_validation_atomicity 99 [2, 3] fxAwaitTextEmptyDraft fxAwaitTextEmptyDraft
    fxEmptyTextMsg fxSendCb (by decide) rfl rfl rfl rfl

theorem splitN2_eq_of_mem (sep : Char) (s : List Char) (h : sep ∈ s) :
    splitN2 sep s =
      [s.takeWhile (fun c => !(c = sep)), (s.dropWhile (fun c => !(c = sep))).drop 1] := by
  unfold splitN2
  cases hd : s.dropWhile (fun c => !(c = sep)) with
  | nil =>
    exfalso
    rw [List.dropWhile_eq_nil_iff] at hd
    have := hd sep h
    simp at this
  | cons c0 post => rfl

/-- C5: a blocked non-admin sender gets exactly the fixed blocked notice:
the update handler produces no other output (in particular nothing is
forwarded into the admin chat), the known-user set is left unchanged (the
`SAdd` is guarded by the block check) and the in-memory flow state is
untouched. -/
theorem c5_blocked_user_only_notice (b : BotCfg) (freshID : Int) (r : RState)
    (m : MState) (msg : Msg)
    (hblocked : msg.sender.id ∈ r.blocked)
    (hnotadmin : msg.sender.id ∉ b.adminIDs) :
    (handleUpdate b freshID r m msg).2.2 = [Output.sendText msg.chatID blockedNotice] ∧
    (handleUpdate b freshID r m msg).1.knownUsers = r.knownUsers ∧
    (handleUpdate b freshID r m msg).2.1 = m ∧
    ((handleUpdate b freshID r m msg).2.2).countP Output.isRelay = 0 := by
  have hout : handleUpdate b freshID r m msg =
      (storeUserInfo r msg.sender, m, [Output.sendText msg.chatID blockedNotice]) := by
    unfold handleUpdate handleMessage handleUserMessage
    have hb1 : msg.sender.id ∈ (storeUserInfo r msg.sender).blocked := hblocked
    simp only [if_pos hb1, if_neg hnotadmin, if_pos hblocked]
  rw [hout]
  exact ⟨rfl, rfl, rfl, rfl⟩

/-- Witness for C5: blocked user 5 (not an admin) sends a plain message. -/
theorem c5_witness :
    (handleUpdate fxCfg 99 fxBlockedR fxEmptyM fxUserMsg).2.2 =
      [Output.sendText 5 blockedNotice] ∧
    (handleUpdate fxCfg 99 fxBlockedR fxEmptyM fxUserMsg).1.knownUsers =
      fxBlockedR.knownUsers ∧
    (handleUpdate fxCfg 99 fxBlockedR fxEmptyM fxUserMsg).2.1 = fxEmptyM ∧
    ((handleUpdate fxCfg 99 fxBlockedR fxEmptyM fxUserMsg).2.2).countP Output.isRelay = 0 :=
  c5_blocked_user_only_notice fxCfg 99 fxBlockedR fxEmptyM fxUserMsg (by decide) (by decide)

/-- C6 counterexample: the line `a|` splits on the first `|` into `a` and
an *empty* second part, so by the claim it should be silently skipped —
but `ParseButtons` produces a button with an empty URL (the code checks
only `len(parts) == 2`, never non-emptiness). -/
theorem c6_counterexample :
    splitN2 pipeCh (trimSpace fxPipeOnly) = [['a'], []] ∧
    ParseButtons fxPipeOnly = [[⟨['a'], []⟩]] := by
  decide

/-- C6 (amended): in `ParseButtons` a line yields a button iff its trimmed
form contains a `|` — blank lines and lines without `|` are silently
skipped, but emptiness of the label/URL parts is *not* checked (a line
with a `|` always yields a button, its label the trimmed part before the
first `|` and its URL the backtick-stripped trimmed remainder).  The
accepted buttons are packed two per row, row-major, preserving input order
(the flattened rows are exactly the parsed buttons in order, every row has
one or two buttons, and all rows but the last have two). -/
theorem c6_amended_parse_skip_and_packing (data line : List Char) :
    parseLineButton line =
      (if pipeCh ∈ trimSpace line then some (buttonOfLine line) else none) ∧
    (ParseButtons data).flatten = (splitOnChar nlCh data).filterMap parseLineButton ∧
    ((ParseButtons data).all fun r => decide (r.length = 1) || decide (r.length = 2)) = true ∧
    (((ParseButtons data).dropLast).all fun r => decide (r.length = 2)) = true := by
  refine ⟨?_, pack2_flatten _, pack2_rows_small _, pack2_dropLast_rows_two _⟩
  by_cases hmem : pipeCh ∈ trimSpace line
  · have hne : trimSpace line ≠ [] := by
      intro h
      rw [h] at hmem
      exact absurd hmem (by simp)
    rw [if_pos hmem]
    unfold parseLineButton
    rw [if_neg hne, splitN2_eq_of_mem pipeCh _ hmem]
    rfl
  · rw [if_neg hmem]
    unfold parseLineButton
    by_cases hne : trimSpace line = []
    · rw [if_pos hne]
    · rw [if_neg hne, splitN2_no_sep pipeCh _ hmem]

/-- C7 counterexample: the `AwaitButtons` input `A | https://x|y` contains
a non-blank line with two `|` separators, so by the claim it must be
rejected — but the handler accepts it, stores a button whose URL is
`https://x|y` and advances the state to `None`. -/
theorem c7_counterexample :
    fxMultiPipeLine.count pipeCh = 2 ∧
    (Broadcast.HandleMessageInput 99 fxAwaitButtonsDraft (fxMsg fxMultiPipeLine)).2.1.adminStates 1 =
      some StateNone ∧
    ((Broadcast.HandleMessageInput 99 fxAwaitButtonsDraft (fxMsg fxMultiPipeLine)).2.1.broadcasts 1).map
      Broadcast.Message.buttons = some [[⟨['A'], fxMultiPipeUrl⟩]] := by
  decide

/-- C7 (amended): an `AwaitButtons` input is accepted — state advances to
`None` and the parsed rows are stored — iff every line is blank or splits
at its *first* `|` into a non-empty label and a non-empty remainder whose
backtick-stripped trimmed form starts with `http://` or `https://`;
additional `|` characters are allowed and become part of the URL.  A
rejected input leaves the manager state (conversation state and draft)
unchanged, and the handler claims the message either way. -/
theorem c7_amended_acceptance_characterization (freshID : Int) (m : MState) (msg : Msg)
    (hstate : m.adminStates msg.chatID = some StateBroadcastAwaitButtons) :
    (Broadcast.HandleMessageInput freshID m msg).1 = true ∧
    ((Broadcast.HandleMessageInput freshID m msg).2.1.adminStates msg.chatID =
        some StateNone ↔ (splitOnChar nlCh msg.text).all lineValidB = true) ∧
    ((splitOnChar nlCh msg.text).all lineValidB = true →
      (Broadcast.HandleMessageInput freshID m msg).2.1.broadcasts msg.chatID =
        some { (m.broadcasts msg.chatID).getD Broadcast.emptyMessage with
               buttons := ParseButtons msg.text }) ∧
    ((splitOnChar nlCh msg.text).all lineValidB = false →
      (Broadcast.HandleMessageInput freshID m msg).2.1 = m) := by
  have hred := handleMessageInput_awaitButtons freshID m msg hstate
  rcases hval : validateLines 0 (splitOnChar nlCh msg.text) with _ | ⟨n, c⟩ | ⟨n, c⟩
  · have hall : (splitOnChar nlCh msg.text).all lineValidB = true :=
      (validateLines_ok_iff _ 0).1 hval
    rw [hval] at hred
    rw [hred]
    refine ⟨rfl, ?_, ?_, ?_⟩
    · simp [hall, Broadcast.sendBroadcastBuilderMenu, MState.setState, MState.setDraft]
    · intro _
      simp [Broadcast.sendBroadcastBuilderMenu, MState.setState, MState.setDraft]
    · intro hfalse
      rw [hall] at hfalse
      exact absurd hfalse (by simp)
  · have hall : (splitOnChar nlCh msg.text).all lineValidB = false := by
      rcases hb : (splitOnChar nlCh msg.text).all lineValidB with _ | _
      · rfl
      · have := (validateLines_ok_iff (splitOnChar nlCh msg.text) 0).2 hb
        rw [hval] at this
        exact absurd this (by simp)
    rw [hval] at hred
    rw [hred]
    refine ⟨rfl, ?_, ?_, ?_⟩
    · constructor
      · intro hst
        rw [hstate] at hst
        exact absurd hst (by decide)
      · intro hTrue
        rw [hTrue] at hall
        exact absurd hall (by simp)
    · intro hTrue
      rw [hTrue] at hall
      exact absurd hall (by simp)
    · intro _
      rfl
  · have hall : (splitOnChar nlCh msg.text).all lineValidB = false := by
      rcases hb : (splitOnChar nlCh msg.text).all lineValidB with _ | _
      · rfl
      · have := (validateLines_ok_iff (splitOnChar nlCh msg.text) 0).2 hb
        rw [hval] at this
        exact absurd this (by simp)
    rw [hval] at hred
    rw [hred]
    refine ⟨rfl, ?_, ?_, ?_⟩
    · constructor
      · intro hst
        rw [hstate] at hst
        exact absurd hst (by decide)
      · intro hTrue
        rw [hTrue] at hall
        exact absurd hall (by simp)
    · intro hTrue
      rw [hTrue] at hall
      exact absurd hall (by simp)
    · intro _
      rfl

/-- Witness for C7 (amended): chat 1 in `AwaitButtons` submits the
two-`|` line, which is accepted. -/
theorem c7_amended_witness :
    (Broadcast.HandleMessageInput 99 fxAwaitButtonsDraft (fxMsg fxMultiPipeLine)).1 = true ∧
    ((Broadcast.HandleMessageInput 99 fxAwaitButtonsDraft (fxMsg fxMultiPipeLine)).2.1.adminStates 1 =
        some StateNone ↔
      (splitOnChar nlCh fxMultiPipeLine).all lineValidB = true) ∧
    ((splitOnChar nlCh fxMultiPipeLine).all lineValidB = true →
      (Broadcast.HandleMessageInput 99 fxAwaitButtonsDraft (fxMsg fxMultiPipeLine)).2.1.broadcasts 1 =
        some { (fxAwaitButtonsDraft.broadcasts 1).getD Broadcast.emptyMessage with
               buttons := ParseButtons fxMultiPipeLine }) ∧
    ((splitOnChar nlCh fxMultiPipeLine).all lineValidB = false →
      (Broadcast.HandleMessageInput 99 fxAwaitButtonsDraft (fxMsg fxMultiPipeLine)).2.1 =
        fxAwaitButtonsDraft) :=
  c7_amended_acceptance_characterization 99 fxAwaitButtonsDraft (fxMsg fxMultiPipeLine)
    (by decide)

theorem enum_shift_map_fst {α : Type} (l : List α) (s : Nat) :
    ((l.enum.map (fun pr => (s + pr.1 + 1, pr.2))).map Prod.fst) =
      List.range' (s + 1) l.length := by
  rw [List.map_map]
  have h1 : (Prod.fst ∘ fun pr : Nat × α => (s + pr.1 + 1, pr.2)) =
      ((fun i => s + 1 + i) ∘ Prod.fst) := by
    funext pr
    simp only [Function.comp_apply]
    omega
  rw [h1, ← List.map_map, List.enum_map_fst, ← List.range'_eq_map_range]

theorem enum_shift_map_snd {α : Type} (l : List α) (s : Nat) :
    ((l.enum.map (fun pr => (s + pr.1 + 1, pr.2))).map Prod.snd) = l := by
  rw [List.map_map]
  have h1 : (Prod.snd ∘ fun pr : Nat × α => (s + pr.1 + 1, pr.2)) = Prod.snd := rfl
  rw [h1, List.enum_map_snd]

/-- C8: for a non-empty blocked list, `handleListBlocked` computes
`totalPages = ceil(len/10)`, resets any requested page outside
`[1, totalPages]` to page 1, shows exactly the entries
`(p-1)*10+1 … min(p*10, len)` of the list (1-based indices, in order), and
attaches the next button exactly when `p < totalPages` and the previous
button exactly when `p > 1`. -/
theorem c8_blocked_list_pagination (blockedIDs : List (List Char)) (page : Int)
    (v : BlockedView) (hne : blockedIDs ≠ [])
    (hv : handleListBlocked blockedIDs page = some v) :
    v.totalPages = (((blockedIDs.length + 9) / 10 : Nat) : Int) ∧
    v.page = (if page < 1 ∨ page > (((blockedIDs.length + 9) / 10 : Nat) : Int)
      then 1 else page) ∧
    v.entries.map Prod.fst =
      List.range' ((v.page.toNat - 1) * 10 + 1)
        (min (v.page.toNat * 10) blockedIDs.length - (v.page.toNat - 1) * 10) ∧
    v.entries.map Prod.snd =
      (blockedIDs.drop ((v.page.toNat - 1) * 10)).take
        (min (v.page.toNat * 10) blockedIDs.length - (v.page.toNat - 1) * 10) ∧
    (v.hasNext = true ↔ v.page < v.totalPages) ∧
    (v.hasPrev = true ↔ 1 < v.page) := by
  unfold handleListBlocked at hv
  rw [if_neg hne] at hv
  simp only [UsersPerPage, Option.some.injEq] at hv
  subst hv
  dsimp only
  have hL1 : 1 ≤ blockedIDs.length := List.length_pos.2 hne
  set L := blockedIDs.length with hLdef
  have e1 : ((L + 10 - 1) / 10 : Nat) = (L + 9) / 10 := by omega
  simp only [e1]
  set tp : Nat := (L + 9) / 10 with htpdef
  set P : Int := if page < 1 ∨ page > (tp : Int) then 1 else page with hPdef
  set start : Nat := (P - 1).toNat * 10 with hstartdef
  set stop : Nat := min (start + 10) L with hstopdef
  have htp1 : 1 ≤ tp := by omega
  have hPb : 1 ≤ P ∧ P ≤ (tp : Int) := by
    by_cases hc : page < 1 ∨ page > (tp : Int)
    · rw [hPdef, if_pos hc]
      omega
    · rw [hPdef, if_neg hc]
      push_neg at hc
      omega
  have hcur : ((blockedIDs.drop start).take (stop - start)).length = stop - start := by
    rw [List.length_take, List.length_drop]
    omega
  clear_value tp P start stop
  have hstart2 : (P.toNat - 1) * 10 = start := by omega
  have h10 : P.toNat * 10 = start + 10 := by omega
  have hcount2 : min (P.toNat * 10) L - (P.toNat - 1) * 10 = stop - start := by
    rw [h10, hstart2, ← hstopdef]
  refine ⟨trivial, trivial, ?_, ?_, ?_, ?_⟩
  · rw [enum_shift_map_fst, hcur, hcount2, hstart2]
  · rw [enum_shift_map_snd, hcount2, hstart2]
  · simp only [Bool.and_eq_true, decide_eq_true_eq]
    constructor
    · exact fun h => h.2
    · intro h
      exact ⟨by omega, h⟩
  · simp only [Bool.and_eq_true, decide_eq_true_eq]
    constructor
    · exact fun h => h.2
    · intro h
      exact ⟨by omega, h⟩

/-- Witness for C8: twelve entries, page 2 — entries 11–12, previous
button only. -/
theorem c8_witness :
    fxBlockedView.totalPages = (((fxBlockedList.length + 9) / 10 : Nat) : Int) ∧
    fxBlockedView.page =
      (if (2 : Int) < 1 ∨ (2 : Int) > (((fxBlockedList.length + 9) / 10 : Nat) : Int)
        then 1 else 2) ∧
    fxBlockedView.entries.map Prod.fst =
      List.range' ((fxBlockedView.page.toNat - 1) * 10 + 1)
        (min (fxBlockedView.page.toNat * 10) fxBlockedList.length -
          (fxBlockedView.page.toNat - 1) * 10) ∧
    fxBlockedView.entries.map Prod.snd =
      (fxBlockedList.drop ((fxBlockedView.page.toNat - 1) * 10)).take
        (min (fxBlockedView.page.toNat * 10) fxBlockedList.length -
          (fxBlockedView.page.toNat - 1) * 10) ∧
    (fxBlockedView.hasNext = true ↔ fxBlockedView.page < fxBlockedView.totalPages) ∧
    (fxBlockedView.hasPrev = true ↔ 1 < fxBlockedView.page) :=
  c8_blocked_list_pagination fxBlockedList 2 fxBlockedView (by decide) (by decide)

theorem length_filter_add_length_filter_not {α : Type} (l : List α) (p : α → Bool) :
    (l.filter p).length + (l.filter (fun a => !(p a))).length = l.length := by
  induction l with
  | nil => simp
  | cons a t ih =>
    by_cases h : p a = true <;> simp [List.filter_cons, h] <;> omega

theorem dropWhile_of_trimP_eq (p : Char → Bool) (s : List Char) (h : trimP p s = s) :
    s.dropWhile p = s := by
  have hsuf : s.dropWhile p <:+ s := List.dropWhile_suffix p
  refine hsuf.eq_of_length ?_
  have h1 : (s.dropWhile p).length ≤ s.length := hsuf.length_le
  have h2 : (trimP p s).length ≤ (s.dropWhile p).length := by
    unfold trimP
    rw [List.length_reverse]
    calc ((s.dropWhile p).reverse.dropWhile p).length
        ≤ (s.dropWhile p).reverse.length := (List.dropWhile_suffix p).length_le
      _ = (s.dropWhile p).length := List.length_reverse _
  rw [h] at h2
  omega

theorem dropWhile_rev_of_trimP_eq (p : Char → Bool) (s : List Char)
    (h : trimP p s = s) : s.reverse.dropWhile p = s.reverse := by
  have h1 : s.dropWhile p = s := dropWhile_of_trimP_eq p s h
  unfold trimP at h
  rw [h1] at h
  have hsuf : s.reverse.dropWhile p <:+ s.reverse := List.dropWhile_suffix p
  refine hsuf.eq_of_length ?_
  have h2 : (s.reverse.dropWhile p).reverse.length = s.length := by rw [h]
  rw [List.length_reverse] at h2
  rw [h2, List.length_reverse]

theorem dropWhile_append_of_stable (p : Char → Bool) (a b : List Char)
    (ha : a.dropWhile p = a) (hne : a ≠ []) :
    (a ++ b).dropWhile p = a ++ b := by
  cases a with
  | nil => exact absurd rfl hne
  | cons c cs =>
    have hpc : p c = false := by
      by_cases hp : p c = true
      · rw [List.dropWhile_cons, if_pos hp] at ha
        have hlen := (List.dropWhile_suffix p : cs.dropWhile p <:+ cs).length_le
        rw [ha] at hlen
        simp at hlen
      · simpa using hp
    rw [List.cons_append, List.dropWhile_cons, hpc]
    simp

theorem trimP_of_ends (p : Char → Bool) (s : List Char)
    (h1 : s.dropWhile p = s) (h2 : s.reverse.dropWhile p = s.reverse) :
    trimP p s = s := by
  unfold trimP
  rw [h1, h2, List.reverse_reverse]

theorem trimSpace_label_space (label : List Char) (hl : trimSpace label = label)
    (hne : label ≠ []) : trimSpace (label ++ [' ']) = label := by
  have hstep1 : (label ++ [' ']).dropWhile goIsSpace = label ++ [' '] :=
    dropWhile_append_of_stable _ _ _ (dropWhile_of_trimP_eq _ _ hl) hne
  have hrev : (label ++ [' ']).reverse = ' ' :: label.reverse := by simp
  unfold trimSpace trimP
  rw [hstep1, hrev, List.dropWhile_cons, if_pos (by decide : goIsSpace ' ' = true)]
  rw [dropWhile_rev_of_trimP_eq goIsSpace label hl, List.reverse_reverse]

theorem trimSpace_space_url (url : List Char) (hu : trimSpace url = url) :
    trimSpace (' ' :: url) = url := by
  unfold trimSpace trimP
  rw [List.dropWhile_cons, if_pos (by decide : goIsSpace ' ' = true)]
  rw [dropWhile_of_trimP_eq goIsSpace url hu]
  rw [dropWhile_rev_of_trimP_eq goIsSpace url hu, List.reverse_reverse]

theorem trimSpace_serialize (label url : List Char) (hl : trimSpace label = label)
    (hlne : label ≠ []) (hu : trimSpace url = url) (hune : url ≠ []) :
    trimSpace (label ++ ' ' :: pipeCh :: ' ' :: url) =
      label ++ ' ' :: pipeCh :: ' ' :: url := by
  apply trimP_of_ends
  · exact dropWhile_append_of_stable _ _ _ (dropWhile_of_trimP_eq _ _ hl) hlne
  · have hrev : (label ++ ' ' :: pipeCh :: ' ' :: url).reverse =
        url.reverse ++ ' ' :: pipeCh :: ' ' :: label.reverse := by simp
    rw [hrev]
    have hurne : url.reverse ≠ [] := by simpa using hune
    exact dropWhile_append_of_stable _ _ _ (dropWhile_rev_of_trimP_eq _ _ hu) hurne

theorem parseLineButton_serialize (b : Button) (hb : GoodButton b) :
    parseLineButton (serializeButton b) = some b := by
  obtain ⟨⟨hlne, hlp, hln, hlt⟩, hune, hun, hut, hub⟩ := hb
  have hpipe : pipeCh ∉ b.label ++ [' '] := by
    intro hmem
    rcases List.mem_append.1 hmem with h | h
    · exact hlp h
    · simp only [List.mem_singleton] at h
      exact absurd h (by decide)
  have hassoc : b.label ++ ' ' :: pipeCh :: ' ' :: b.url =
      (b.label ++ [' ']) ++ pipeCh :: (' ' :: b.url) := by simp
  simp only [parseLineButton, serializeButton]
  rw [trimSpace_serialize b.label b.url hlt hlne hut hune]
  rw [if_neg (by simp [hlne] : ¬ (b.label ++ ' ' :: pipeCh :: ' ' :: b.url = []))]
  rw [hassoc, splitN2_with_sep pipeCh (b.label ++ [' ']) (' ' :: b.url) hpipe]
  show some ⟨trimSpace (b.label ++ [' ']),
    trimBackticks (trimSpace (' ' :: b.url))⟩ = some b
  rw [trimSpace_label_space b.label hlt hlne, trimSpace_space_url b.url hut, hub]

theorem nlCh_not_mem_serialize (b : Button) (hb : GoodButton b) :
    nlCh ∉ serializeButton b := by
  obtain ⟨⟨hlne, hlp, hln, hlt⟩, hune, hun, hut, hub⟩ := hb
  unfold serializeButton
  intro hmem
  rcases List.mem_append.1 hmem with h | h
  · exact hln h
  · simp only [List.mem_cons] at h
    rcases h with h | h | h | h
    · exact absurd h (by decide)
    · exact absurd h (by decide)
    · exact absurd h (by decide)
    · exact hun h

theorem filterMap_parse_serialize (flat : List Button)
    (h : ∀ b ∈ flat, GoodButton b) :
    (flat.map serializeButton).filterMap parseLineButton = flat := by
  induction flat with
  | nil => rfl
  | cons b bs ih =>
    rw [List.map_cons, List.filterMap_cons,
      parseLineButton_serialize b (h b (by simp))]
    rw [ih (fun x hx => h x (List.mem_cons_of_mem b hx))]

theorem splitOnChar_joinLines (lines : List (List Char)) (hne : lines ≠ [])
    (h : ∀ l ∈ lines, nlCh ∉ l) :
    splitOnChar nlCh (joinLines lines) = lines := by
  induction lines with
  | nil => exact absurd rfl hne
  | cons l ls ih =>
    cases ls with
    | nil => exact splitOnChar_no_sep nlCh l (h l (by simp))
    | cons l2 ls2 =>
      have hj : joinLines (l :: l2 :: ls2) = l ++ nlCh :: joinLines (l2 :: ls2) := rfl
      rw [hj, splitOnChar_append_sep nlCh l _ (h l (by simp))]
      rw [ih (by simp) (fun x hx => h x (List.mem_cons_of_mem l hx))]

/-- C9: round trip — serializing a packed button-row set to one
`label | url` line per button and parsing the result with `ParseButtons`
reproduces the rows, for every row set producible by the button-line
grammar (labels non-empty, free of `|`/newlines and trim-stable; URLs
non-empty, newline-free, trim-stable and without surrounding backticks;
rows packed two per row in input order). -/
theorem c9_parse_serialize_roundTrip (rows : List (List Button))
    (hpack : pack2 rows.flatten = rows)
    (hgood : ∀ row ∈ rows, ∀ b ∈ row, GoodButton b) :
    ParseButtons (serializeRows rows) = rows := by
  have hflat : ∀ b ∈ rows.flatten, GoodButton b := by
    intro b hb
    rw [List.mem_flatten] at hb
    obtain ⟨row, hrow, hbrow⟩ := hb
    exact hgood row hrow b hbrow
  rcases hfl : rows.flatten with _ | ⟨b0, bs⟩
  · rw [← hpack, hfl]
    rfl
  · unfold ParseButtons serializeRows
    rw [splitOnChar_joinLines (rows.flatten.map serializeButton)
      (by rw [hfl]; simp)
      (by
        intro ln hln
        rw [List.mem_map] at hln
        obtain ⟨b, hbmem, rfl⟩ := hln
        exact nlCh_not_mem_serialize b (hflat b hbmem))]
    rw [filterMap_parse_serialize rows.flatten hflat, hpack]

/-- Witness for C9: one row of two grammar-producible buttons survives the
round trip. -/
theorem c9_witness : ParseButtons (serializeRows fxRows) = fxRows :=
  c9_parse_serialize_roundTrip fxRows (by decide) (by decide)

/-- C10: the `/stats` report computes the active-user count as
`|KnownUserSet| - |BlockSet|`, a plain difference of set sizes with no
intersection; whenever some blocked ID is not a known user the reported
count is strictly below the true set difference
`|KnownUserSet \ BlockSet|`, and there are states in which the reported
count is negative. -/
theorem c10_stats_active_undercount (known blocked : List Int) (b : Int)
    (hk : known.Nodup) (hb : blocked.Nodup) (hbB : b ∈ blocked) (hbK : b ∉ known) :
    (handleUserStats known blocked).2.1 =
      (known.length : Int) - (blocked.length : Int) ∧
    (handleUserStats known blocked).2.1 <
      ((known.filter (fun k => !(decide (k ∈ blocked)))).length : Int) ∧
    ∃ kn bl : List Int, (handleUserStats kn bl).2.1 < 0 := by
  refine ⟨rfl, ?_, ⟨[], [0], by decide⟩⟩
  have hpart := length_filter_add_length_filter_not known (fun k => decide (k ∈ blocked))
  have hAnodup : (known.filter (fun k => decide (k ∈ blocked))).Nodup := hk.filter _
  have hsub : known.filter (fun k => decide (k ∈ blocked)) ⊆ blocked.erase b := by
    intro x hx
    rw [List.mem_filter] at hx
    have hxb : x ∈ blocked := by simpa using hx.2
    have hxne : x ≠ b := fun he => hbK (he ▸ hx.1)
    exact (List.mem_erase_of_ne hxne).2 hxb
  have hAle : (known.filter (fun k => decide (k ∈ blocked))).length ≤
      (blocked.erase b).length := (hAnodup.subperm hsub).length_le
  have herase : (blocked.erase b).length = blocked.length - 1 :=
    List.length_erase_of_mem hbB
  have hbpos : 1 ≤ blocked.length := List.length_pos.2 (List.ne_nil_of_mem hbB)
  show (known.length : Int) - (blocked.length : Int) <
    ((known.filter (fun k => !(decide (k ∈ blocked)))).length : Int)
  omega

/-- Witness for C10: one known user (7), one blocked stranger (5): the
report says 0 active users while the true difference is 1. -/
theorem c10_witness :
    (handleUserStats [7] [5]).2.1 = ((1 : Nat) : Int) - ((1 : Nat) : Int) ∧
    (handleUserStats [7] [5]).2.1 <
      ((([7] : List Int).filter (fun k => !(decide (k ∈ ([5] : List Int))))).length : Int) ∧
    ∃ kn bl : List Int, (handleUserStats kn bl).2.1 < 0 :=
  c10_stats_active_undercount [7] [5] 5 (by decide) (by decide) (by decide) (by decide)
